import Mathlib

/-!
Shallow embedding of the `toodledo` client library
(`src/toodledo/toodledo.py`) and verification of its specification.

Modelling conventions:
* A Python string is modelled as a list of Unicode code points (`PyStr`).
* A calendar date is modelled by its day index relative to the Unix epoch
  (an `Int`); `datetime(year=d.year, month=d.month, day=d.day)` denotes
  local midnight of that day, so with a fixed local-UTC offset `tz`
  (local wall clock = UTC + `tz` seconds) its `timestamp()` is
  `d * 86400 - tz`, and `date.fromtimestamp(t)` is the local calendar
  day `⌊(t + tz) / 86400⌋`.
* Machine floats carry these integral second counts exactly, so epoch
  timestamps are modelled as `Int`.
* A JSON object (Python dict) with string keys and integral values is an
  insertion-ordered association list; `dictSet` is `d[k] = v`.
* Exceptions are modelled by `Except` with an explicit error type `PyErr`;
  `PyErr.nameError s` is a `NameError` raised by evaluating the unbound
  identifier `s`.
-/

abbrev PyStr := List Char

/-! ### Python string primitives used by the source -/

/-- `str.split(sep)` for a one-character separator: splits on every
occurrence, keeping empty pieces; `"".split(",") == [""]`. -/
def pySplit (c : Char) : PyStr → List PyStr
  | [] => [[]]
  | x :: rest =>
    if x = c then [] :: pySplit c rest
    else
      match pySplit c rest with
      | [] => [[x]]
      | h :: t => (x :: h) :: t

/-- Left part of `str.strip()`: drop leading whitespace. -/
def stripLeft (s : PyStr) : PyStr := s.dropWhile Char.isWhitespace

/-- `str.strip()`: drop leading and trailing whitespace. -/
def pyStrip (s : PyStr) : PyStr := (stripLeft ((stripLeft s).reverse)).reverse

/-- `sep.join(pieces)`. -/
def pyJoin (sep : PyStr) : List PyStr → PyStr
  | [] => []
  | [x] => x
  | x :: y :: rest => x ++ sep ++ pyJoin sep (y :: rest)

/-- Python `<` on strings: lexicographic comparison by code point. -/
def lexLe : PyStr → PyStr → Bool
  | [], _ => true
  | _ :: _, [] => false
  | a :: as, b :: bs => if a = b then lexLe as bs else decide (a < b)

/-- Insert into a lexicographically ordered list, before the first
element that is not smaller. -/
def insertSorted (x : PyStr) : List PyStr → List PyStr
  | [] => [x]
  | y :: ys => if lexLe x y then x :: y :: ys else y :: insertSorted x ys

/-- Python `sorted` on a list of strings.  Python's sort is a stable
sort for the (linear) lexicographic order; since equal strings are
identical, its output is the unique ordered rearrangement, which
insertion sort also computes. -/
def pySorted (l : List PyStr) : List PyStr := l.foldr insertSorted []

/-! ### Field codec: optional dates (`ToodledoDate`)

`_serialize`: `None ↦ 0`, otherwise
`datetime(year=v.year, month=v.month, day=v.day).timestamp()` — local
midnight of the date (the hour is never set).
`_deserialize`: `0 ↦ None`, otherwise `date.fromtimestamp(v)`.
`tz` is the fixed local-UTC offset in seconds. -/

namespace ToodledoDate

def serialize (tz : Int) : Option Int → Int
  | none => 0
  | some d => d * 86400 - tz

def deserialize (tz : Int) (v : Int) : Option Int :=
  if v = 0 then none else some ((v + tz).fdiv 86400)

end ToodledoDate

/-! ### Field codec: optional datetimes (`ToodledoDatetime`)

`_serialize`: `None ↦ 0`, otherwise `value.timestamp()`;
`_deserialize`: `0 ↦ None`, otherwise `datetime.fromtimestamp(v)`.
A datetime is modelled by its epoch timestamp, so both directions are
the identity up to the `0` sentinel. -/

namespace ToodledoDatetime

def serialize : Option Int → Int
  | none => 0
  | some t => t

def deserialize (v : Int) : Option Int :=
  if v = 0 then none else some v

end ToodledoDatetime

/-! ### Field codec: tag lists (`ToodledoTags`)

`_serialize`: `", ".join(sorted(value))`;
`_deserialize`: `[] if value == "" else [x.strip() for x in value.split(",")]`. -/

namespace ToodledoTags

def serialize (value : List PyStr) : PyStr :=
  pyJoin [',', ' '] (pySorted value)

def deserialize (value : PyStr) : List PyStr :=
  if value = [] then [] else (pySplit ',' value).map pyStrip

end ToodledoTags

namespace Toodledo

/-! ### Domain and wire records (`Task`, `TaskSchema`, marshmallow 2.x)

A `Task` is a bag of optional attributes (`Task(**data)` sets exactly
the keys present); `none` means the attribute is absent.  A date-typed
attribute, when present, is itself optional (`ToodledoDate` maps the
wire sentinel `0` to `None`).  `TaskWire` is the flat wire mapping with
the schema's renamed keys (`dump_to`/`load_from`): `id`, `title`,
`tag`, `startdate`, `duedate`, `modified`, `completed`. -/

structure Task where
  id_ : Option Int := none
  title : Option PyStr := none
  tags : Option (List PyStr) := none
  startDate : Option (Option Int) := none
  dueDate : Option (Option Int) := none
  modified : Option (Option Int) := none
  completedDate : Option (Option Int) := none
  deriving Repr, DecidableEq

structure TaskWire where
  id : Option Int := none
  title : Option PyStr := none
  tag : Option PyStr := none
  startdate : Option Int := none
  duedate : Option Int := none
  modified : Option Int := none
  completed : Option Int := none
  deriving Repr, DecidableEq

/-- `TaskSchema().load(w)` under marshmallow 2.x with the default
non-strict mode: returns `UnmarshalResult(data, errors)`.  Field
validators run on deserialization only; the single validator is
`Length(max=255)` on `title`.  A field failing validation is recorded
in `errors` under its name and omitted from `data`. -/
def loadTask (tz : Int) (w : TaskWire) : Task × List String :=
  let titleRes : Option PyStr × List String :=
    match w.title with
    | none => (none, [])
    | some t => if t.length ≤ 255 then (some t, []) else (none, ["title"])
  ({ id_ := w.id
     title := titleRes.1
     tags := w.tag.map ToodledoTags.deserialize
     startDate := w.startdate.map (ToodledoDate.deserialize tz)
     dueDate := w.duedate.map (ToodledoDate.deserialize tz)
     modified := w.modified.map ToodledoDatetime.deserialize
     completedDate := w.completed.map (ToodledoDate.deserialize tz) },
   titleRes.2)

/-- `TaskSchema().load(w).data` — the `.data` projection used by
`GetTasks`; any collected errors are discarded by the caller. -/
def loadTaskData (tz : Int) (w : TaskWire) : Task := (loadTask tz w).1

/-- `TaskSchema().dump(task).data` under marshmallow 2.x: serialization
runs the field `_serialize` hooks but no validators; absent attributes
are skipped. -/
def dumpTask (tz : Int) (t : Task) : TaskWire :=
  { id := t.id_
    title := t.title
    tag := t.tags.map ToodledoTags.serialize
    startdate := t.startDate.map (ToodledoDate.serialize tz)
    duedate := t.dueDate.map (ToodledoDate.serialize tz)
    modified := t.modified.map ToodledoDatetime.serialize
    completed := t.completedDate.map (ToodledoDate.serialize tz) }

/-- `DumpTaskList`: dump each task with a fresh `TaskSchema`, keeping
only `.data` (the `.errors` half of each `MarshalResult` is ignored). -/
def DumpTaskList (tz : Int) (taskList : List Task) : List TaskWire :=
  taskList.map (dumpTask tz)

/-! ### Accounts (`Account`, `AccountSchema`) -/

structure Account where
  lastEditTask : Option Int
  lastDeleteTask : Option Int
  deriving Repr, DecidableEq

structure AccountWire where
  lastedit_task : Int
  lastdelete_task : Int
  deriving Repr, DecidableEq

/-- `AccountSchema().load(w).data`: both fields go through
`ToodledoDatetime` and `MakeAccount`. -/
def loadAccount (w : AccountWire) : Account :=
  { lastEditTask := ToodledoDatetime.deserialize w.lastedit_task
    lastDeleteTask := ToodledoDatetime.deserialize w.lastdelete_task }

/-! ### Errors (`ToodledoError`) and the exception model -/

/-- `ToodledoError.errorCodeToMessage.get(code, "Unknown error")`. -/
def errorCodeToMessage (code : Int) : String :=
  if code = 1 then "No access token was given"
  else if code = 2 then "The access token was invalid"
  else if code = 3 then "Too many API requests"
  else if code = 4 then "The API is offline for maintenance"
  else if code = 601 then "Your task must have a title."
  else if code = 602 then "Only 50 tasks can be added/edited/deleted at a time."
  else if code = 603 then "The maximum number of tasks allowed per account (20000) has been reached"
  else if code = 604 then "Empty id"
  else if code = 605 then "Invalid task"
  else if code = 606 then "Nothing was added/edited. You'll get this error if you attempt to edit a task but don't pass any parameters to edit."
  else if code = 607 then "Invalid folder id"
  else if code = 608 then "Invalid context id"
  else if code = 609 then "Invalid goal id"
  else if code = 610 then "Invalid location id"
  else if code = 611 then "Malformed request"
  else if code = 612 then "Invalid parent id"
  else if code = 613 then "Incorrect field parameters"
  else if code = 614 then "Parent was deleted"
  else if code = 615 then "Invalid collaborator"
  else if code = 616 then "Unable to reassign or share task"
  else "Unknown error"

/-- Exceptions raised by the embedded code. -/
inductive PyErr where
  /-- `ToodledoError(code)`: carries `(message, code)` from
  `super().__init__(errorMessage, errorCode)`. -/
  | toodledo (message : String) (code : Int)
  /-- `NameError` from evaluating the unbound identifier `name`. -/
  | nameError (name : String)
  /-- `oauthlib`'s `TokenMissingError` raised by the transport. -/
  | tokenMissing
  /-- `requests.HTTPError` from `raise_for_status()` on a non-2xx status. -/
  | httpError (status : Nat)
  /-- Model artifact: the supplied response sequence was exhausted. -/
  | noResponse
  deriving Repr, DecidableEq

/-- Constructing `ToodledoError(errorCode)`. -/
def toodledoError (code : Int) : PyErr :=
  .toodledo (errorCodeToMessage code) code

/-! ### Request parameter dictionaries

`GetTasks` mutates its caller's `params` dict in place
(`params["start"] = start; params["num"] = limit`).  A dict is an
insertion-ordered association list with unique keys. -/

/-- `d[k] = v`: overwrite in place if `k` is present, else append. -/
def dictSet (k : String) (v : Int) : List (String × Int) → List (String × Int)
  | [] => [(k, v)]
  | (k', v') :: rest =>
    if k' = k then (k', v) :: rest else (k', v') :: dictSet k v rest

/-- `d.get(k)`: first (unique) binding of `k`. -/
def dictGet (k : String) : List (String × Int) → Option Int
  | [] => none
  | (k', v') :: rest => if k' = k then some v' else dictGet k rest

/-! ### Paged read (`GetTasks`)

The server is modelled by the sequence of decoded JSON responses it
returns to the successive requests.  A 2xx JSON body is either an
array (whose first element is the count/status marker) or an error
object `{"errorCode": c}`; `"errorCode" in tasks` is membership of the
dict's keys for an object and never holds for an array of task
records. -/

inductive GetResp where
  /-- 2xx, body a JSON array `tasks` (first element: count marker). -/
  | arr (items : List TaskWire)
  /-- 2xx, body `{"errorCode": code}`. -/
  | errObj (code : Int)
  /-- non-2xx status: `raise_for_status()` raises. -/
  | httpErr (status : Nat)
  deriving Repr, DecidableEq

/-- The `while True` loop of `GetTasks`.  Returns the issued requests
(each request's `params` snapshot, in order), the final state of the
caller's `params` dict, and the accumulated `allTasks` or the raised
exception.  The loop reuses — and therefore permanently mutates — the
caller's dict. -/
def getTasksLoop (pages : List GetResp) (params : List (String × Int))
    (start : Nat) :
    List (List (String × Int)) × List (String × Int) × Except PyErr (List TaskWire) :=
  match pages with
  | [] => ([], params, .error .noResponse)
  | page :: rest =>
    let params' := dictSet "num" 1000 (dictSet "start" (Int.ofNat start) params)
    match page with
    | .httpErr s => ([params'], params', .error (.httpError s))
    | .errObj c => ([params'], params', .error (toodledoError c))
    | .arr items =>
      -- "the first field contains the count or the error code"
      let stripped := items.drop 1
      if stripped.length < 1000 then ([params'], params', .ok stripped)
      else
        let r := getTasksLoop rest params' (start + 1000)
        (params' :: r.1, r.2.1, r.2.2.map (stripped ++ ·))

/-- Module-level `GetTasks(session, params)` with the transport
abstracted to the response sequence `pages`: pages of up to
`limit = 1000` starting at offset 0, each response stripped of its
leading marker and extended onto `allTasks`, stopping at the first
short page; finally each accumulated record is loaded through
`TaskSchema` (keeping `.data`). -/
def GetTasks (tz : Int) (pages : List GetResp) (params : List (String × Int)) :
    List (List (String × Int)) × List (String × Int) × Except PyErr (List Task) :=
  let r := getTasksLoop pages params 0
  (r.1, r.2.1, r.2.2.map (·.map (loadTaskData tz)))

/-! ### Batched writes (`AddTasks`, `EditTasks`, `DeleteTasks`)

The server is modelled by `respond`, giving the decoded outcome of the
`k`-th POST.  Each loop slices `taskList[start : start + 50]`, sends
it, and stops when the slice's length is `< 50`. -/

inductive WriteResp where
  /-- 2xx, body without an `errorCode` key. -/
  | success
  /-- 2xx, body `{"errorCode": code}`. -/
  | errCode (code : Int)
  /-- non-2xx status: `raise_for_status()` raises. -/
  | httpErr (status : Nat)
  deriving Repr, DecidableEq

/-- The `while True` loop of `AddTasks`: returns the issued request
payloads (`DumpTaskList` of each slice, in order) and the outcome.
On an `errorCode` body the source executes
`raise ToodledoError(tasks["errorCode"])`, but no name `tasks` is
bound anywhere in `AddTasks` or at module level, so evaluating the
argument raises `NameError` instead. -/
def addTasksLoop (tz : Int) (respond : Nat → WriteResp) (taskList : List Task)
    (start k : Nat) : List (List TaskWire) × Except PyErr Unit :=
  let listDump := DumpTaskList tz ((taskList.drop start).take 50)
  match respond k with
  | .httpErr s => ([listDump], .error (.httpError s))
  | .errCode _ => ([listDump], .error (.nameError "tasks"))
  | .success =>
    if ((taskList.drop start).take 50).length < 50 then
      ([listDump], .ok ())
    else
      let r := addTasksLoop tz respond taskList (start + 50) (k + 1)
      (listDump :: r.1, r.2)
termination_by taskList.length - start
decreasing_by simp only [List.length_take, List.length_drop] at *; omega

/-- `AddTasks(session, taskList)`: immediate return on an empty list,
else the batching loop from offset 0. -/
def AddTasks (tz : Int) (respond : Nat → WriteResp) (taskList : List Task) :
    List (List TaskWire) × Except PyErr Unit :=
  if taskList.length = 0 then ([], .ok ()) else addTasksLoop tz respond taskList 0 0

/-- The `while True` loop of `EditTasks`: identical chunking; here the
error path correctly raises `ToodledoError(taskResponse["errorCode"])`. -/
def editTasksLoop (tz : Int) (respond : Nat → WriteResp) (taskList : List Task)
    (start k : Nat) : List (List TaskWire) × Except PyErr Unit :=
  let listDump := DumpTaskList tz ((taskList.drop start).take 50)
  match respond k with
  | .httpErr s => ([listDump], .error (.httpError s))
  | .errCode c => ([listDump], .error (toodledoError c))
  | .success =>
    if ((taskList.drop start).take 50).length < 50 then
      ([listDump], .ok ())
    else
      let r := editTasksLoop tz respond taskList (start + 50) (k + 1)
      (listDump :: r.1, r.2)
termination_by taskList.length - start
decreasing_by simp only [List.length_take, List.length_drop] at *; omega

/-- `EditTasks(session, taskList)`. -/
def EditTasks (tz : Int) (respond : Nat → WriteResp) (taskList : List Task) :
    List (List TaskWire) × Except PyErr Unit :=
  if taskList.length = 0 then ([], .ok ()) else editTasksLoop tz respond taskList 0 0

/-- The `while True` loop of `DeleteTasks`, slicing the precomputed
`taskIdList`.  As in `AddTasks`, the error path's
`raise ToodledoError(tasks["errorCode"])` evaluates the unbound name
`tasks` and raises `NameError`. -/
def deleteTasksLoop (respond : Nat → WriteResp) (taskIdList : List (Option Int))
    (start k : Nat) : List (List (Option Int)) × Except PyErr Unit :=
  let payload := (taskIdList.drop start).take 50
  match respond k with
  | .httpErr s => ([payload], .error (.httpError s))
  | .errCode _ => ([payload], .error (.nameError "tasks"))
  | .success =>
    if ((taskIdList.drop start).take 50).length < 50 then
      ([payload], .ok ())
    else
      let r := deleteTasksLoop respond taskIdList (start + 50) (k + 1)
      (payload :: r.1, r.2)
termination_by taskIdList.length - start
decreasing_by simp only [List.length_take, List.length_drop] at *; omega

/-- `DeleteTasks(session, taskList)`: immediate return on an empty
list, else chunk `taskIdList = [task.id_ for task in taskList]`
(`task.id_` is the task's optional `id_` attribute). -/
def DeleteTasks (respond : Nat → WriteResp) (taskList : List Task) :
    List (List (Option Int)) × Except PyErr Unit :=
  if taskList.length = 0 then ([], .ok ())
  else deleteTasksLoop respond (taskList.map (·.id_)) 0 0

/-! ### Service client (`class Toodledo`)

A session is abstracted to an opaque identifier; `authorize` models
`self.Authorize()` producing a fresh session. -/

abbrev Session := Nat

/-- `ReauthorizeIfNecessary(self, func)`.  The source's handler is
`except TokenMissingError:`, but `TokenMissingError` is never imported
and no module-level binding exists; when any exception propagates out
of `func(self.session)`, evaluating the handler's class expression
raises `NameError`, so the reauthorize-and-retry body (modelled by the
unused `authorize`) is unreachable. -/
def ReauthorizeIfNecessary (authorize : Unit → Session) (s : Session)
    (func : Session → Except PyErr α) : Except PyErr α :=
  match func s with
  | .ok v => .ok v
  | .error _ => .error (.nameError "TokenMissingError")

/-- Module-level `GetAccount(session)` with the transport abstracted:
`server` models `session.get(...)` + `raise_for_status()` + `.json()`. -/
def GetAccount (server : Session → Except PyErr AccountWire) (session : Session) :
    Except PyErr Account :=
  (server session).map loadAccount

/-- Method `Toodledo.GetAccount(self)`: its body is the bare statement
`self.ReauthorizeIfNecessary(partial(GetAccount))` with no `return`,
so on success the method returns `None` (modelled as `none`); an
exception propagates. -/
def clientGetAccount (authorize : Unit → Session) (s : Session)
    (server : Session → Except PyErr AccountWire) : Except PyErr (Option Account) :=
  (ReauthorizeIfNecessary authorize s (GetAccount server)).map (fun _ => none)

/-- Method `Toodledo.GetTasks(self, params)`: likewise a bare statement
with no `return`; `func` is `partial(GetTasks, params=params)` applied
to the session. -/
def clientGetTasks (authorize : Unit → Session) (s : Session)
    (func : Session → Except PyErr (List Task)) : Except PyErr (Option (List Task)) :=
  (ReauthorizeIfNecessary authorize s func).map (fun _ => none)

/-! ## Verification -/

/-- C3: the Service Client methods do not return their operation's
result.  With a server that successfully yields an account record,
`Toodledo.GetAccount()` evaluates to `None` even though the wrapped
module-level `GetAccount` computed the decoded `Account`; likewise
`Toodledo.GetTasks(params)` evaluates to `None` on success, and no
successful call of either method can ever produce a value. -/
theorem clientGetAccount_returns_none :
    clientGetAccount (fun _ => 1) 0 (fun _ => .ok ⟨100, 200⟩) = .ok none ∧
    GetAccount (fun _ => .ok ⟨100, 200⟩) 0 = .ok ⟨some 100, some 200⟩ ∧
    clientGetTasks (fun _ => 1) 0 (fun _ => (GetTasks 0 [.arr [{}]] []).2.2) = .ok none ∧
    (∀ (authorize : Unit → Session) (s : Session)
       (server : Session → Except PyErr AccountWire) (a : Account),
       clientGetAccount authorize s server ≠ .ok (some a)) ∧
    (∀ (authorize : Unit → Session) (s : Session)
       (func : Session → Except PyErr (List Task)) (ts : List Task),
       clientGetTasks authorize s func ≠ .ok (some ts)) := by
  refine ⟨rfl, rfl, rfl, ?_, ?_⟩
  · intro authorize s server a
    unfold clientGetAccount ReauthorizeIfNecessary
    cases GetAccount server s <;> simp [Except.map]
  · intro authorize s func ts
    unfold clientGetTasks ReauthorizeIfNecessary
    cases func s <;> simp [Except.map]

/-- C4: the Optional Date codec encodes the unset value as `0` as
claimed, but a set date is encoded as *local midnight* of the date
(`d * 86400 - tz`), not noon: in the UTC environment (`tz = 0`),
day 18000 encodes to `1555200000 = 18000·86400`, which is not the noon
value `18000·86400 + 43200` the specification states (and which the
source's own comment "a GMT timestamp with the time set to noon"
promises). -/
theorem toodledoDate_encodes_local_midnight :
    (∀ tz : Int, ToodledoDate.serialize tz none = 0) ∧
    (∀ tz d : Int, ToodledoDate.serialize tz (some d) = d * 86400 - tz) ∧
    ToodledoDate.serialize 0 (some 18000) = 1555200000 ∧
    (1555200000 : Int) ≠ 18000 * 86400 + 43200 := by
  refine ⟨fun tz => rfl, fun tz d => rfl, by decide, by decide⟩

/-- C5: the date round trip `decode(encode(d)) = d` fails in the UTC
environment at the epoch date (day 0): its midnight encoding is the
wire sentinel `0`, so decoding returns the unset value instead of the
date.  For every date and timezone whose encoding is nonzero the round
trip does hold, so the failure is exactly this sentinel collision —
introduced by encoding midnight instead of the documented noon, which
can never be `0`. -/
theorem date_roundtrip_epoch_collision :
    ToodledoDate.deserialize 0 (ToodledoDate.serialize 0 (some 0)) = none ∧
    (none : Option Int) ≠ some 0 ∧
    (∀ tz d : Int, d * 86400 - tz ≠ 0 →
      ToodledoDate.deserialize tz (ToodledoDate.serialize tz (some d)) = some d) := by
  refine ⟨by decide, by decide, ?_⟩
  intro tz d h
  simp only [ToodledoDate.serialize, ToodledoDate.deserialize, if_neg h]
  rw [Int.sub_add_cancel, Int.mul_fdiv_cancel d (by norm_num)]

/-- Witness for `date_roundtrip_epoch_collision`: in the UTC+1
environment (`tz = 3600`) the epoch date's encoding is `-3600 ≠ 0` and
it round-trips. -/
theorem date_roundtrip_epoch_collision_witness :
    ((0 : Int) * 86400 - 3600 ≠ 0) ∧
    ToodledoDate.deserialize 3600 (ToodledoDate.serialize 3600 (some 0)) = some 0 :=
  ⟨by decide, date_roundtrip_epoch_collision.2.2 3600 0 (by decide)⟩

/-- C7: a 2xx response embedding `{"errorCode": 601}` makes `EditTasks`
and `GetTasks` raise `ToodledoError` with the table message "Your task
must have a title." (and an unrecognized code maps to "Unknown error"),
but `AddTasks` and `DeleteTasks` instead raise `NameError`: their
`raise ToodledoError(tasks["errorCode"])` reads the unbound name
`tasks`, so the abort does not carry the service error code. -/
theorem errorCode_response_handling :
    (AddTasks 0 (fun _ => .errCode 601) [{}]).2 = .error (.nameError "tasks") ∧
    (DeleteTasks (fun _ => .errCode 601) [{}]).2 = .error (.nameError "tasks") ∧
    (EditTasks 0 (fun _ => .errCode 601) [{}]).2
      = .error (.toodledo "Your task must have a title." 601) ∧
    (GetTasks 0 [.errObj 601] []).2.2
      = .error (.toodledo "Your task must have a title." 601) ∧
    (EditTasks 0 (fun _ => .errCode 999) [{}]).2
      = .error (.toodledo "Unknown error" 999) ∧
    (Except.error (PyErr.nameError "tasks") : Except PyErr Unit)
      ≠ .error (toodledoError 601) := by
  refine ⟨?_, ?_, ?_, rfl, ?_, by simp [toodledoError]⟩ <;>
    simp [AddTasks, DeleteTasks, EditTasks, addTasksLoop, deleteTasksLoop,
      editTasksLoop, toodledoError, errorCodeToMessage]

/-- C8: no operation is ever retried after a token failure.  The
`except TokenMissingError:` clause evaluates an unbound name, so a
first call failing with `TokenMissingError` ends in `NameError` even
when reauthorization (yielding session 1) would let the retry succeed
with `42`; moreover every successful `ReauthorizeIfNecessary` outcome
comes from the *first* invocation of `func` — the retry path can never
produce a result. -/
theorem reauthorize_raises_nameError :
    ReauthorizeIfNecessary (fun _ => 1) 0
        (fun s => if s = 0 then .error .tokenMissing else .ok (42 : Nat))
      = .error (.nameError "TokenMissingError") ∧
    (Except.error (PyErr.nameError "TokenMissingError") : Except PyErr Nat) ≠ .ok 42 ∧
    (∀ (authorize : Unit → Session) (s : Session)
       (func : Session → Except PyErr Nat) (v : Nat),
       ReauthorizeIfNecessary authorize s func = .ok v → func s = .ok v) := by
  refine ⟨rfl, by simp, ?_⟩
  intro authorize s func v h
  unfold ReauthorizeIfNecessary at h
  cases hf : func s <;> rw [hf] at h <;> simp_all

/-- Witness for `reauthorize_raises_nameError`: a first call that
already succeeds is returned unchanged. -/
theorem reauthorize_raises_nameError_witness :
    ReauthorizeIfNecessary (fun _ => 1) 0 (fun _ => .ok (5 : Nat)) = .ok 5 ∧
    (fun _ => Except.ok (5 : Nat) : Session → Except PyErr Nat) 0 = .ok 5 :=
  ⟨rfl, reauthorize_raises_nameError.2.2 (fun _ => 1) 0 (fun _ => .ok 5) 5 rfl⟩


set_option maxRecDepth 10000 in
/-- C9 counterexample: `AddTasks` with a single task whose title has
256 characters does not fail before issuing a request — exactly one
request is issued, its payload carrying the over-long title verbatim,
and the operation succeeds, because marshmallow serialization
(`TaskSchema().dump`) runs no validators. -/
theorem title_256_request_issued :
    (AddTasks 0 (fun _ => .success) [{ title := some (List.replicate 256 'a') }]).1
      = [[{ title := some (List.replicate 256 'a') }]] ∧
    (AddTasks 0 (fun _ => .success) [{ title := some (List.replicate 256 'a') }]).2
      = .ok () ∧
    (List.replicate 256 'a').length = 256 := by
  refine ⟨?_, ?_, by rw [List.length_replicate]⟩ <;>
    simp [AddTasks, addTasksLoop, DumpTaskList, dumpTask]

/-- C9 amended: the ≤255 title-length constraint is enforced on
deserialization only.  Loading a wire record whose title exceeds 255
characters records an error identifying the `title` field (and omits
the title from the loaded data), while dumping never validates: the
encoded record carries whatever title the task has. -/
theorem title_validated_on_load_only (tz : Int) (w : TaskWire) (t : PyStr)
    (hw : w.title = some t) (ht : 255 < t.length) :
    (loadTask tz w).2 = ["title"] ∧
    (loadTask tz w).1.title = none ∧
    (∀ task : Task, (dumpTask tz task).title = task.title) := by
  refine ⟨?_, ?_, fun task => rfl⟩ <;>
    simp only [loadTask, hw, if_neg (Nat.not_le.mpr ht)]

/-- Witness for `title_validated_on_load_only` at a concrete wire
record with a 256-character title. -/
theorem title_validated_on_load_only_witness :
    ({ title := some (List.replicate 256 'b') } : TaskWire).title
      = some (List.replicate 256 'b') ∧
    255 < (List.replicate 256 'b').length ∧
    ((loadTask 0 { title := some (List.replicate 256 'b') }).2 = ["title"] ∧
     (loadTask 0 { title := some (List.replicate 256 'b') }).1.title = none ∧
     (∀ task : Task, (dumpTask 0 task).title = task.title)) :=
  ⟨rfl, by rw [List.length_replicate]; decide,
   title_validated_on_load_only 0 _ (List.replicate 256 'b') rfl
     (by rw [List.length_replicate]; decide)⟩

/-- C10 counterexample: `GetTasks` does not pass the caller's params
through unmodified.  With caller params `{"start": 5}`, the single
issued request carries `start = 0` (the caller's value is overwritten),
and after the call the caller's dict has become
`{"start": 0, "num": 1000}` — mutated in place. -/
theorem getTasks_mutates_params :
    (GetTasks 0 [.arr [{}]] [("start", 5)]).1.map (dictGet "start") = [some 0] ∧
    some (0 : Int) ≠ some (5 : Int) ∧
    (GetTasks 0 [.arr [{}]] [("start", 5)]).2.1 = [("start", 0), ("num", 1000)] ∧
    [("start", (0 : Int)), ("num", (1000 : Int))] ≠ [("start", (5 : Int))] :=
  ⟨rfl, by decide, rfl, by decide⟩

lemma dictGet_dictSet_self (k : String) (v : Int) (d : List (String × Int)) :
    dictGet k (dictSet k v d) = some v := by
  induction d with
  | nil => simp [dictSet, dictGet]
  | cons p rest ih =>
    obtain ⟨a, b⟩ := p
    by_cases ha : a = k
    · subst ha; simp [dictSet, dictGet]
    · simp [dictSet, dictGet, ha, ih]

lemma dictGet_dictSet_ne (k k' : String) (h : k ≠ k') (v : Int)
    (d : List (String × Int)) : dictGet k (dictSet k' v d) = dictGet k d := by
  induction d with
  | nil => simp [dictSet, dictGet, Ne.symm h]
  | cons p rest ih =>
    obtain ⟨a, b⟩ := p
    by_cases ha : a = k'
    · subst ha; simp [dictSet, dictGet, Ne.symm h]
    · simp [dictSet, dictGet, ha, ih]

lemma getTasksLoop_preserves_other_keys (k : String) (h1 : k ≠ "start")
    (h2 : k ≠ "num") :
    ∀ (pages : List GetResp) (params : List (String × Int)) (start : Nat),
      (∀ req ∈ (getTasksLoop pages params start).1,
        dictGet k req = dictGet k params) ∧
      dictGet k (getTasksLoop pages params start).2.1 = dictGet k params := by
  intro pages
  induction pages with
  | nil => intro params start; simp [getTasksLoop]
  | cons page rest ih =>
    intro params start
    have hp : dictGet k (dictSet "num" 1000 (dictSet "start" (Int.ofNat start) params))
        = dictGet k params := by
      rw [dictGet_dictSet_ne k "num" h2, dictGet_dictSet_ne k "start" h1]
    cases page with
    | httpErr s =>
      refine ⟨fun req hreq => ?_, ?_⟩
      · simp only [getTasksLoop, List.mem_singleton] at hreq
        rw [hreq]; exact hp
      · simpa only [getTasksLoop] using hp
    | errObj c =>
      refine ⟨fun req hreq => ?_, ?_⟩
      · simp only [getTasksLoop, List.mem_singleton] at hreq
        rw [hreq]; exact hp
      · simpa only [getTasksLoop] using hp
    | arr items =>
      have hrec := ih (dictSet "num" 1000 (dictSet "start" (Int.ofNat start) params))
        (start + 1000)
      refine ⟨fun req hreq => ?_, ?_⟩
      · simp only [getTasksLoop] at hreq
        split at hreq
        · simp only [List.mem_singleton] at hreq
          rw [hreq]; exact hp
        · simp only [List.mem_cons] at hreq
          rcases hreq with h | h
          · rw [h]; exact hp
          · rw [hrec.1 req h]; exact hp
      · simp only [getTasksLoop]
        split
        · exact hp
        · rw [hrec.2]; exact hp

/-- C10 amended: caller-supplied filter keys *other than* `"start"` and
`"num"` are passed through to every issued request with their original
values and survive in the caller's dict; but the operation does mutate
the caller's params mapping, overwriting or adding the `"start"` and
`"num"` keys as a side effect. -/
theorem getTasks_passthrough_other_keys (tz : Int) (pages : List GetResp)
    (params : List (String × Int)) (k : String) (h1 : k ≠ "start")
    (h2 : k ≠ "num") :
    (∀ req ∈ (GetTasks tz pages params).1, dictGet k req = dictGet k params) ∧
    dictGet k (GetTasks tz pages params).2.1 = dictGet k params :=
  getTasksLoop_preserves_other_keys k h1 h2 pages params 0

/-- Witness for `getTasks_passthrough_other_keys` at the key `"comp"`. -/
theorem getTasks_passthrough_other_keys_witness :
    ("comp" ≠ "start") ∧ ("comp" ≠ "num") ∧
    ((∀ req ∈ (GetTasks 0 [.arr [{}]] [("comp", 7)]).1,
        dictGet "comp" req = dictGet "comp" [("comp", 7)]) ∧
      dictGet "comp" (GetTasks 0 [.arr [{}]] [("comp", 7)]).2.1
        = dictGet "comp" [("comp", 7)]) :=
  ⟨by decide, by decide,
   getTasks_passthrough_other_keys 0 [.arr [{}]] [("comp", 7)] "comp"
     (by decide) (by decide)⟩


/-! ### The tag codec round trip (splitting a join) -/

lemma mem_insertSorted (a x : PyStr) (l : List PyStr) :
    a ∈ insertSorted x l ↔ a = x ∨ a ∈ l := by
  induction l with
  | nil => simp [insertSorted]
  | cons y ys ih =>
    by_cases h : lexLe x y
    · simp [insertSorted, h, List.mem_cons]
    · simp [insertSorted, h, List.mem_cons, ih]
      tauto

lemma mem_pySorted (a : PyStr) (l : List PyStr) : a ∈ pySorted l ↔ a ∈ l := by
  induction l with
  | nil => simp [pySorted]
  | cons x xs ih =>
    rw [show pySorted (x :: xs) = insertSorted x (pySorted xs) from rfl,
      mem_insertSorted]
    simp [ih, List.mem_cons]

lemma pySorted_ne_nil (l : List PyStr) (h : l ≠ []) : pySorted l ≠ [] := by
  cases l with
  | nil => exact absurd rfl h
  | cons x xs =>
    intro hcontra
    have hx : x ∈ pySorted (x :: xs) := (mem_pySorted x _).mpr (by simp)
    rw [hcontra] at hx
    simp at hx

lemma pySplit_ne_nil (c : Char) (s : PyStr) : pySplit c s ≠ [] := by
  induction s with
  | nil => simp [pySplit]
  | cons x rest ih =>
    by_cases h : x = c
    · simp [pySplit, h]
    · cases hr : pySplit c rest with
      | nil => simp [pySplit, h, hr]
      | cons a t => simp [pySplit, h, hr]

lemma pySplit_no_sep (c : Char) (s : PyStr) (h : c ∉ s) : pySplit c s = [s] := by
  induction s with
  | nil => rfl
  | cons x rest ih =>
    have hx : ¬x = c := fun e => h (by rw [← e]; exact List.mem_cons_self x rest)
    have hrest : c ∉ rest := fun m => h (List.mem_cons_of_mem _ m)
    simp [pySplit, hx, ih hrest]

lemma pySplit_append (c : Char) (x b : PyStr) (h : c ∉ x) :
    pySplit c (x ++ c :: b) = x :: pySplit c b := by
  induction x with
  | nil => simp [pySplit]
  | cons a x' ih =>
    have ha : ¬a = c := fun e => h (by rw [← e]; exact List.mem_cons_self a x')
    have h' : c ∉ x' := fun m => h (List.mem_cons_of_mem _ m)
    simp [pySplit, ha, ih h']

lemma pyStrip_space_cons (s : PyStr) : pyStrip (' ' :: s) = pyStrip s := by
  have hw : Char.isWhitespace ' ' = true := by decide
  simp [pyStrip, stripLeft, List.dropWhile_cons, hw]

lemma map_strip_split_space (b : PyStr) :
    (pySplit ',' (' ' :: b)).map pyStrip = (pySplit ',' b).map pyStrip := by
  cases hsp : pySplit ',' b with
  | nil => exact absurd hsp (pySplit_ne_nil ',' b)
  | cons h t =>
    simp [pySplit, (by decide : ¬(' ' = ',')), hsp, pyStrip_space_cons]

lemma pyJoin_ne_nil (l : List PyStr) (hl : l ≠ []) (h : ∀ t ∈ l, t ≠ []) :
    pyJoin [',', ' '] l ≠ [] := by
  cases l with
  | nil => exact absurd rfl hl
  | cons x xs =>
    cases xs with
    | nil => exact h x (by simp)
    | cons y ys => simp [pyJoin]

lemma split_join (l : List PyStr) (hl : l ≠ [])
    (hc : ∀ t ∈ l, t ≠ [] ∧ (',' ∉ t) ∧ pyStrip t = t) :
    (pySplit ',' (pyJoin [',', ' '] l)).map pyStrip = l := by
  induction l with
  | nil => exact absurd rfl hl
  | cons x xs ih =>
    obtain ⟨hx1, hx2, hx3⟩ := hc x (by simp)
    cases xs with
    | nil => simp [pyJoin, pySplit_no_sep ',' x hx2, hx3]
    | cons y ys =>
      have hrest := fun t ht => hc t (List.mem_cons_of_mem _ ht)
      have hjoin : pyJoin [',', ' '] (x :: y :: ys)
          = x ++ ',' :: ' ' :: pyJoin [',', ' '] (y :: ys) := by
        simp [pyJoin]
      rw [hjoin, pySplit_append ',' x _ hx2, List.map_cons, hx3,
        map_strip_split_space, ih (by simp) hrest]

/-- C6 counterexample: a tag containing a comma breaks the claimed
round trip.  For `tags = ["a,b"]`, `decode(encode(tags)) = ["a", "b"]`
while `sorted(trimmed(tags)) = ["a,b"]`. -/
theorem tags_roundtrip_counterexample :
    ToodledoTags.deserialize (ToodledoTags.serialize [['a', ',', 'b']])
      = [['a'], ['b']] ∧
    pySorted (([['a', ',', 'b']] : List PyStr).map pyStrip) = [['a', ',', 'b']] ∧
    ([['a'], ['b']] : List PyStr) ≠ [['a', ',', 'b']] := by
  refine ⟨by decide, by decide, by decide⟩

/-- C6 amended: for tag lists whose tags are nonempty, comma-free and
already whitespace-trimmed (so that `sorted(trimmed(tags))` coincides
with `sorted(tags)`), the round trip normalizes order:
`decode(encode(tags)) = sorted(tags)`; and `encode([]) = ""`,
`decode("") = []`.  (Each hypothesis is necessary: a comma inside a tag
is split, surrounding whitespace is lost — and, having been sorted
before trimming, can leave the result unsorted — and `encode([""]) = ""`
decodes to `[]`.) -/
theorem tags_roundtrip_sorted (tags : List PyStr)
    (h : ∀ t ∈ tags, t ≠ [] ∧ (',' ∉ t) ∧ pyStrip t = t) :
    ToodledoTags.deserialize (ToodledoTags.serialize tags) = pySorted tags ∧
    ToodledoTags.serialize [] = [] ∧
    ToodledoTags.deserialize [] = [] := by
  refine ⟨?_, rfl, rfl⟩
  by_cases htags : tags = []
  · subst htags; rfl
  · have hs : pySorted tags ≠ [] := pySorted_ne_nil tags htags
    have hmem : ∀ t ∈ pySorted tags, t ≠ [] ∧ (',' ∉ t) ∧ pyStrip t = t :=
      fun t ht => h t ((mem_pySorted t tags).mp ht)
    have hjoin : pyJoin [',', ' '] (pySorted tags) ≠ [] :=
      pyJoin_ne_nil _ hs (fun t ht => (hmem t ht).1)
    unfold ToodledoTags.serialize ToodledoTags.deserialize
    rw [if_neg hjoin]
    exact split_join _ hs hmem

/-- Witness for `tags_roundtrip_sorted` at `tags = ["b", "a"]`. -/
theorem tags_roundtrip_sorted_witness :
    (∀ t ∈ ([['b'], ['a']] : List PyStr), t ≠ [] ∧ (',' ∉ t) ∧ pyStrip t = t) ∧
    (ToodledoTags.deserialize (ToodledoTags.serialize [['b'], ['a']])
        = pySorted [['b'], ['a']] ∧
     ToodledoTags.serialize [] = [] ∧
     ToodledoTags.deserialize [] = []) :=
  ⟨by decide, tags_roundtrip_sorted [['b'], ['a']] (by decide)⟩


/-! ### Batched-write chunking (the request-size rule) -/

/-- Stated by the specification (claim side): the sizes of the issued
requests are consecutive chunks of `min(50, remaining)`, terminated by
the "last chunk < limit" rule — so an exact multiple of 50 ends with
one trailing empty chunk. -/
def specChunkSizesGo (rem : Nat) : List Nat :=
  if min 50 rem < 50 then [min 50 rem]
  else min 50 rem :: specChunkSizesGo (rem - 50)
termination_by rem
decreasing_by omega

/-- Stated by the specification (claim side): an empty input issues no
requests at all; otherwise the sizes follow `specChunkSizesGo`. -/
def specChunkSizes (len : Nat) : List Nat :=
  if len = 0 then [] else specChunkSizesGo len

lemma specGo_lt (rem : Nat) (h : rem < 50) : specChunkSizesGo rem = [rem] := by
  rw [specChunkSizesGo, Nat.min_eq_right (Nat.le_of_lt h), if_pos h]

lemma specGo_ge (rem : Nat) (h : 50 ≤ rem) :
    specChunkSizesGo rem = 50 :: specChunkSizesGo (rem - 50) := by
  rw [specChunkSizesGo, Nat.min_eq_left h, if_neg (by omega)]

lemma addTasksLoop_ok (tz : Int) (l : List Task) (start k : Nat) :
    (addTasksLoop tz (fun _ => .success) l start k).2 = .ok () ∧
    (addTasksLoop tz (fun _ => .success) l start k).1.map List.length
      = specChunkSizesGo (l.length - start) ∧
    (addTasksLoop tz (fun _ => .success) l start k).1.flatten
      = DumpTaskList tz (l.drop start) := by
  have H : ∀ (n start k : Nat), l.length - start = n →
      (addTasksLoop tz (fun _ => .success) l start k).2 = .ok () ∧
      (addTasksLoop tz (fun _ => .success) l start k).1.map List.length
        = specChunkSizesGo (l.length - start) ∧
      (addTasksLoop tz (fun _ => .success) l start k).1.flatten
        = DumpTaskList tz (l.drop start) := by
    intro n
    induction n using Nat.strong_induction_on with
    | _ n ih =>
      intro start k hn
      rw [addTasksLoop]
      have hlen : ((l.drop start).take 50).length = min 50 (l.length - start) := by
        simp [List.length_take, List.length_drop]
      by_cases h : ((l.drop start).take 50).length < 50
      · rw [if_pos h]
        have hmin : min 50 (l.length - start) < 50 := hlen ▸ h
        have htake : (l.drop start).take 50 = l.drop start := by
          apply List.take_of_length_le
          simp only [List.length_drop]
          omega
        refine ⟨rfl, ?_, ?_⟩
        · rw [specChunkSizesGo, if_pos hmin]
          simp [DumpTaskList, hlen]
        · simp [htake]
      · rw [if_neg h]
        have hge : 50 ≤ l.length - start := by omega
        have hrec := ih (l.length - (start + 50)) (by omega) (start + 50) (k + 1) rfl
        refine ⟨hrec.1, ?_, ?_⟩
        · simp only [List.map_cons, hrec.2.1]
          rw [specGo_ge _ hge]
          have e : l.length - (start + 50) = l.length - start - 50 := by omega
          rw [e]
          congr 1
          simp only [DumpTaskList, List.length_map]
          omega
        · simp only [List.flatten_cons, hrec.2.2]
          simp only [DumpTaskList, ← List.map_append]
          congr 1
          rw [show l.drop (start + 50) = (l.drop start).drop 50 from by
            rw [List.drop_drop]]
          exact List.take_append_drop 50 (l.drop start)
  exact H (l.length - start) start k rfl

lemma editTasksLoop_ok (tz : Int) (l : List Task) (start k : Nat) :
    (editTasksLoop tz (fun _ => .success) l start k).2 = .ok () ∧
    (editTasksLoop tz (fun _ => .success) l start k).1.map List.length
      = specChunkSizesGo (l.length - start) ∧
    (editTasksLoop tz (fun _ => .success) l start k).1.flatten
      = DumpTaskList tz (l.drop start) := by
  have H : ∀ (n start k : Nat), l.length - start = n →
      (editTasksLoop tz (fun _ => .success) l start k).2 = .ok () ∧
      (editTasksLoop tz (fun _ => .success) l start k).1.map List.length
        = specChunkSizesGo (l.length - start) ∧
      (editTasksLoop tz (fun _ => .success) l start k).1.flatten
        = DumpTaskList tz (l.drop start) := by
    intro n
    induction n using Nat.strong_induction_on with
    | _ n ih =>
      intro start k hn
      rw [editTasksLoop]
      have hlen : ((l.drop start).take 50).length = min 50 (l.length - start) := by
        simp [List.length_take, List.length_drop]
      by_cases h : ((l.drop start).take 50).length < 50
      · rw [if_pos h]
        have hmin : min 50 (l.length - start) < 50 := hlen ▸ h
        have htake : (l.drop start).take 50 = l.drop start := by
          apply List.take_of_length_le
          simp only [List.length_drop]
          omega
        refine ⟨rfl, ?_, ?_⟩
        · rw [specChunkSizesGo, if_pos hmin]
          simp [DumpTaskList, hlen]
        · simp [htake]
      · rw [if_neg h]
        have hge : 50 ≤ l.length - start := by omega
        have hrec := ih (l.length - (start + 50)) (by omega) (start + 50) (k + 1) rfl
        refine ⟨hrec.1, ?_, ?_⟩
        · simp only [List.map_cons, hrec.2.1]
          rw [specGo_ge _ hge]
          have e : l.length - (start + 50) = l.length - start - 50 := by omega
          rw [e]
          congr 1
          simp only [DumpTaskList, List.length_map]
          omega
        · simp only [List.flatten_cons, hrec.2.2]
          simp only [DumpTaskList, ← List.map_append]
          congr 1
          rw [show l.drop (start + 50) = (l.drop start).drop 50 from by
            rw [List.drop_drop]]
          exact List.take_append_drop 50 (l.drop start)
  exact H (l.length - start) start k rfl

lemma deleteTasksLoop_ok (ids : List (Option Int)) (start k : Nat) :
    (deleteTasksLoop (fun _ => .success) ids start k).2 = .ok () ∧
    (deleteTasksLoop (fun _ => .success) ids start k).1.map List.length
      = specChunkSizesGo (ids.length - start) ∧
    (deleteTasksLoop (fun _ => .success) ids start k).1.flatten
      = ids.drop start := by
  have H : ∀ (n start k : Nat), ids.length - start = n →
      (deleteTasksLoop (fun _ => .success) ids start k).2 = .ok () ∧
      (deleteTasksLoop (fun _ => .success) ids start k).1.map List.length
        = specChunkSizesGo (ids.length - start) ∧
      (deleteTasksLoop (fun _ => .success) ids start k).1.flatten
        = ids.drop start := by
    intro n
    induction n using Nat.strong_induction_on with
    | _ n ih =>
      intro start k hn
      rw [deleteTasksLoop]
      have hlen : ((ids.drop start).take 50).length = min 50 (ids.length - start) := by
        simp [List.length_take, List.length_drop]
      by_cases h : ((ids.drop start).take 50).length < 50
      · rw [if_pos h]
        have hmin : min 50 (ids.length - start) < 50 := hlen ▸ h
        have htake : (ids.drop start).take 50 = ids.drop start := by
          apply List.take_of_length_le
          simp only [List.length_drop]
          omega
        refine ⟨rfl, ?_, ?_⟩
        · rw [specChunkSizesGo, if_pos hmin]
          simp [hlen]
        · simp [htake]
      · rw [if_neg h]
        have hge : 50 ≤ ids.length - start := by omega
        have hrec := ih (ids.length - (start + 50)) (by omega) (start + 50) (k + 1) rfl
        refine ⟨hrec.1, ?_, ?_⟩
        · simp only [List.map_cons, hrec.2.1]
          rw [specGo_ge _ hge]
          have e : ids.length - (start + 50) = ids.length - start - 50 := by omega
          rw [e]
          congr 1
          omega
        · simp only [List.flatten_cons, hrec.2.2]
          rw [show ids.drop (start + 50) = (ids.drop start).drop 50 from by
            rw [List.drop_drop]]
          exact List.take_append_drop 50 (ids.drop start)
  exact H (ids.length - start) start k rfl

/-- C1: with all requests succeeding, each batched write issues exactly
the consecutive chunks of its input in input order, with sizes
`min(50, remaining)` terminated by the "last chunk < limit" rule
(`specChunkSizes`): an empty list issues zero requests and returns
immediately (all three operations), the flattened request payloads are
exactly the encoded input in order, and the size rule yields `[]` for
0 records, `[50, 50, 20]` for 120, and `[50, 50, 0]` — three requests,
the last one empty — for exactly 100. -/
theorem batch_write_chunking (tz : Int) (l : List Task) :
    AddTasks tz (fun _ => .success) ([] : List Task) = ([], .ok ()) ∧
    EditTasks tz (fun _ => .success) ([] : List Task) = ([], .ok ()) ∧
    DeleteTasks (fun _ => .success) ([] : List Task) = ([], .ok ()) ∧
    (AddTasks tz (fun _ => .success) l).2 = .ok () ∧
    (AddTasks tz (fun _ => .success) l).1.map List.length = specChunkSizes l.length ∧
    (AddTasks tz (fun _ => .success) l).1.flatten = DumpTaskList tz l ∧
    (EditTasks tz (fun _ => .success) l).2 = .ok () ∧
    (EditTasks tz (fun _ => .success) l).1.map List.length = specChunkSizes l.length ∧
    (EditTasks tz (fun _ => .success) l).1.flatten = DumpTaskList tz l ∧
    (DeleteTasks (fun _ => .success) l).2 = .ok () ∧
    (DeleteTasks (fun _ => .success) l).1.map List.length = specChunkSizes l.length ∧
    (DeleteTasks (fun _ => .success) l).1.flatten = l.map (·.id_) ∧
    specChunkSizes 0 = [] ∧
    specChunkSizes 120 = [50, 50, 20] ∧
    specChunkSizes 100 = [50, 50, 0] := by
  have hadd := addTasksLoop_ok tz l 0 0
  have hedit := editTasksLoop_ok tz l 0 0
  have hdel := deleteTasksLoop_ok (l.map (·.id_)) 0 0
  refine ⟨rfl, rfl, rfl, ?_, ?_, ?_, ?_, ?_, ?_, ?_, ?_, ?_, rfl, ?_, ?_⟩
  · by_cases hl : l.length = 0
    · simp [AddTasks, hl]
    · simpa [AddTasks, hl] using hadd.1
  · by_cases hl : l.length = 0
    · have : l = [] := List.length_eq_zero.mp hl
      subst this
      simp [AddTasks, specChunkSizes]
    · rw [specChunkSizes, if_neg hl]
      simpa [AddTasks, hl] using hadd.2.1
  · by_cases hl : l.length = 0
    · have : l = [] := List.length_eq_zero.mp hl
      subst this
      simp [AddTasks, DumpTaskList]
    · simpa [AddTasks, hl] using hadd.2.2
  · by_cases hl : l.length = 0
    · simp [EditTasks, hl]
    · simpa [EditTasks, hl] using hedit.1
  · by_cases hl : l.length = 0
    · have : l = [] := List.length_eq_zero.mp hl
      subst this
      simp [EditTasks, specChunkSizes]
    · rw [specChunkSizes, if_neg hl]
      simpa [EditTasks, hl] using hedit.2.1
  · by_cases hl : l.length = 0
    · have : l = [] := List.length_eq_zero.mp hl
      subst this
      simp [EditTasks, DumpTaskList]
    · simpa [EditTasks, hl] using hedit.2.2
  · by_cases hl : l.length = 0
    · simp [DeleteTasks, hl]
    · simpa [DeleteTasks, hl] using hdel.1
  · by_cases hl : l.length = 0
    · have : l = [] := List.length_eq_zero.mp hl
      subst this
      simp [DeleteTasks, specChunkSizes]
    · rw [specChunkSizes, if_neg hl]
      have : (l.map (·.id_)).length = l.length := List.length_map l _
      simpa [DeleteTasks, hl, this] using hdel.2.1
  · by_cases hl : l.length = 0
    · have : l = [] := List.length_eq_zero.mp hl
      subst this
      simp [DeleteTasks]
    · simpa [DeleteTasks, hl] using hdel.2.2
  · rw [specChunkSizes, if_neg (by norm_num), specGo_ge 120 (by norm_num),
      show (120 : Nat) - 50 = 70 from rfl, specGo_ge 70 (by norm_num),
      show (70 : Nat) - 50 = 20 from rfl, specGo_lt 20 (by norm_num)]
  · rw [specChunkSizes, if_neg (by norm_num), specGo_ge 100 (by norm_num),
      show (100 : Nat) - 50 = 50 from rfl, specGo_ge 50 (by norm_num),
      show (50 : Nat) - 50 = 0 from rfl, specGo_lt 0 (by norm_num)]


/-- C2: for a paged read whose three successive responses carry task
portions (after stripping the leading count/status element) of sizes
1000, 1000 and 400, exactly 3 requests are issued with `start` offsets
0, 1000 and 2000, and the result is the 2400 stripped records in
order, schema-loaded, with no count/status marker included. -/
theorem getTasks_paged_read (tz : Int) (params : List (String × Int))
    (i1 i2 i3 : List TaskWire)
    (h1 : (i1.drop 1).length = 1000) (h2 : (i2.drop 1).length = 1000)
    (h3 : (i3.drop 1).length = 400) :
    (GetTasks tz [.arr i1, .arr i2, .arr i3] params).1.map (dictGet "start")
      = [some 0, some 1000, some 2000] ∧
    (GetTasks tz [.arr i1, .arr i2, .arr i3] params).1.length = 3 ∧
    (GetTasks tz [.arr i1, .arr i2, .arr i3] params).2.2
      = .ok ((i1.drop 1 ++ i2.drop 1 ++ i3.drop 1).map (loadTaskData tz)) ∧
    ((i1.drop 1 ++ i2.drop 1 ++ i3.drop 1).map (loadTaskData tz)).length = 2400 := by
  have hstart := dictGet_dictSet_self "start"
  have hnum := dictGet_dictSet_ne "start" "num" (by decide)
  simp only [GetTasks, getTasksLoop, h1, h2, h3]
  norm_num [hnum, hstart, List.append_assoc, h1, h2, h3]
  have l1 : i1.length - 1 = 1000 := by simpa using h1
  have l2 : i2.length - 1 = 1000 := by simpa using h2
  have l3 : i3.length - 1 = 400 := by simpa using h3
  constructor
  · simp [Except.map, List.map_append, List.map_tail]
  · omega

/-- Witness for `getTasks_paged_read`: responses of 1001, 1001 and 401
records (count marker included). -/
theorem getTasks_paged_read_witness :
    ((List.replicate 1001 ({} : TaskWire)).drop 1).length = 1000 ∧
    ((List.replicate 401 ({} : TaskWire)).drop 1).length = 400 ∧
    ((GetTasks 0 [.arr (List.replicate 1001 ({} : TaskWire)),
        .arr (List.replicate 1001 ({} : TaskWire)),
        .arr (List.replicate 401 ({} : TaskWire))] []).1.map (dictGet "start")
      = [some 0, some 1000, some 2000] ∧
     (GetTasks 0 [.arr (List.replicate 1001 ({} : TaskWire)),
        .arr (List.replicate 1001 ({} : TaskWire)),
        .arr (List.replicate 401 ({} : TaskWire))] []).1.length = 3 ∧
     (GetTasks 0 [.arr (List.replicate 1001 ({} : TaskWire)),
        .arr (List.replicate 1001 ({} : TaskWire)),
        .arr (List.replicate 401 ({} : TaskWire))] []).2.2
      = .ok (((List.replicate 1001 ({} : TaskWire)).drop 1
          ++ (List.replicate 1001 ({} : TaskWire)).drop 1
          ++ (List.replicate 401 ({} : TaskWire)).drop 1).map (loadTaskData 0)) ∧
     (((List.replicate 1001 ({} : TaskWire)).drop 1
          ++ (List.replicate 1001 ({} : TaskWire)).drop 1
          ++ (List.replicate 401 ({} : TaskWire)).drop 1).map (loadTaskData 0)).length
       = 2400) := by
  have hlen : ∀ (n : Nat),
      ((List.replicate n ({} : TaskWire)).drop 1).length = n - 1 := by
    intro n
    rw [List.length_drop, List.length_replicate]
  exact ⟨hlen 1001, hlen 401,
    getTasks_paged_read 0 [] _ _ _ (hlen 1001) (hlen 1001) (hlen 401)⟩

end Toodledo
